import Mathlib

/-!
Shallow embedding of the Reward & Streak Engine of `backend/api/wallet.py`
(and the duplicated single-file variant `backend/main_old.py`), together with
the Pydantic request models of `backend/models/schemas.py`.

Conventions used throughout:
* Python `int` is embedded as `ℤ` (streak counters that are provably
  non-negative use `ℕ`).
* The float multipliers `1.2`, `1.5`, `2.0` are embedded as the rationals
  `6/5`, `3/2`, `2`; Python `int(x)` (truncation toward zero) is `pyInt`.
* Calendar dates are embedded as integers (day numbers); projecting a
  timestamp to `created_at[:10]` is projecting to that day number.
* The Supabase tables are embedded as explicit state records; each route
  handler becomes a function from state (plus request data) to
  (outcome, new state).
-/

namespace Wallet

/-- `ActivityType` enum of `backend/models/schemas.py` (closed enumeration of
the four known activity values). -/
inductive ActivityType where
  | POMODORO
  | EXERCISE
  | STUDY
  | DEEP_WORK
deriving DecidableEq

/-- The string value carried by each enum member
(`"pomodoro_25min"`, `"exercise_30min"`, `"study_1h"`, `"deep_work_2h"`). -/
def ActivityType.value : ActivityType → String
  | .POMODORO => "pomodoro_25min"
  | .EXERCISE => "exercise_30min"
  | .STUDY => "study_1h"
  | .DEEP_WORK => "deep_work_2h"

/-- Pydantic coercion of a raw request string into the `ActivityType` enum:
succeeds exactly on the four enumeration values, otherwise the request fails
validation (`ValidationError`) before the route handler runs. -/
def parseActivityType (s : String) : Option ActivityType :=
  if s = "pomodoro_25min" then some .POMODORO
  else if s = "exercise_30min" then some .EXERCISE
  else if s = "study_1h" then some .STUDY
  else if s = "deep_work_2h" then some .DEEP_WORK
  else none

/-- `ACTIVITY_COINS` table of `backend/api/wallet.py` lines 14-19: base coins
per activity type.  The Python dict is total on the enum, so the lookup
`ACTIVITY_COINS[activity.activity_type]` never raises. -/
def ACTIVITY_COINS : ActivityType → ℤ
  | .POMODORO => 50
  | .EXERCISE => 75
  | .STUDY => 100
  | .DEEP_WORK => 200

/-- `STREAK_MULTIPLIERS` dict of `backend/api/wallet.py` lines 22-26, as its
list of `(threshold_days, multiplier)` items in insertion order. -/
def STREAK_MULTIPLIERS : List (ℤ × ℚ) :=
  [(3, 6/5), (7, 3/2), (30, 2)]

/-- Insert a `(days, multiplier)` pair into a list that is sorted by
descending threshold (helper for `sortDesc`). -/
def insertDesc (p : ℤ × ℚ) : List (ℤ × ℚ) → List (ℤ × ℚ)
  | [] => [p]
  | q :: qs => if q.1 ≤ p.1 then p :: q :: qs else q :: insertDesc p qs

/-- `sorted(STREAK_MULTIPLIERS.items(), reverse=True)`: sort the table items
by descending threshold (dict keys are distinct, so comparing thresholds
matches Python's lexicographic tuple order). -/
def sortDesc : List (ℤ × ℚ) → List (ℤ × ℚ)
  | [] => []
  | p :: ps => insertDesc p (sortDesc ps)

/-- The `for days, multiplier in ...: if streak_days >= days: return multiplier`
loop body of `get_streak_multiplier`, with the final `return 1.0`. -/
def findMult (streak_days : ℤ) : List (ℤ × ℚ) → ℚ
  | [] => 1
  | (days, multiplier) :: rest =>
      if days ≤ streak_days then multiplier else findMult streak_days rest

/-- `get_streak_multiplier` of `backend/api/wallet.py` lines 230-235,
parametrised by the multiplier table (the dict items in supply order). -/
def get_streak_multiplier_table (table : List (ℤ × ℚ)) (streak_days : ℤ) : ℚ :=
  findMult streak_days (sortDesc table)

/-- `get_streak_multiplier` applied to the configured `STREAK_MULTIPLIERS`. -/
def get_streak_multiplier (streak_days : ℤ) : ℚ :=
  get_streak_multiplier_table STREAK_MULTIPLIERS streak_days

/-- Python `int(x)`: truncation toward zero (used at
`final_coins = int(base_coins * streak_multiplier)`, line 66). -/
def pyInt (q : ℚ) : ℤ :=
  Int.tdiv q.num (q.den : ℤ)

/-- The `while True` loop of `calculate_user_streak` lines 213-222: walk
backward from `current`, counting consecutive days present in
`activity_dates`, stopping at the first absent day.  The Python loop is
unbounded; here `fuel` bounds the iteration count, and any fuel exceeding the
number of consecutive present days (at most `dates.card`) yields the loop's
value. -/
def streakLoop (dates : Finset ℤ) : ℤ → ℕ → ℕ
  | _, 0 => 0
  | current, fuel + 1 =>
      if current ∈ dates then streakLoop dates (current - 1) fuel + 1 else 0

/-- `calculate_user_streak` of `backend/api/wallet.py` lines 185-228, happy
path: `activity_days` is the list of day numbers (`created_at[:10]`) of the
fetched activities; an empty fetch returns 0 (line 203-204); otherwise the
days are collected into a set of distinct dates (lines 207-210) and the
backward walk runs from `today`.  Fuel `card + 1` strictly exceeds any
possible iteration count. -/
def calculate_user_streak (activity_days : List ℤ) (today : ℤ) : ℕ :=
  if activity_days = [] then 0
  else streakLoop activity_days.toFinset today (activity_days.toFinset.card + 1)

/-- `calculate_user_streak` including its `try/except` wrapper (lines
192-228): a storage failure while fetching the history is caught, printed,
and turned into the ordinary return value 0. -/
def calculate_user_streak_run (fetched : Except String (List ℤ)) (today : ℤ) : ℕ :=
  match fetched with
  | .error _ => 0
  | .ok activity_days => calculate_user_streak activity_days today

/-- `final_coins = int(base_coins * streak_multiplier)` of `earn_coins`
line 66, as a function of the activity type and the streak length. -/
def final_coins (atype : ActivityType) (streak_days : ℤ) : ℤ :=
  pyInt ((ACTIVITY_COINS atype : ℚ) * get_streak_multiplier streak_days)

/-- The `(baseCoins, multiplier, finalCoins)` triple computed by `earn_coins`
lines 59-66 for a given `(activityType, streakDays)` input. -/
def reward (atype : ActivityType) (streak_days : ℤ) : ℤ × ℚ × ℤ :=
  (ACTIVITY_COINS atype, get_streak_multiplier streak_days,
    final_coins atype streak_days)

/-- One row of the `activities` table, with the fields inserted by
`earn_coins` lines 69-77 plus the DB-assigned `created_at` (a day number). -/
structure ActivityRow where
  user_id : String
  activity_type : String
  coins_earned : ℤ
  duration_minutes : Option ℤ
  notes : Option String
  streak_days : ℤ
  multiplier_applied : ℚ
  created_at : ℤ
deriving DecidableEq

/-- The store state touched by `earn_coins`: the `activities` table and the
current user's wallet balance (`none` when the wallet row is missing). -/
structure EarnState where
  activities : List ActivityRow
  wallet : Option ℤ
deriving DecidableEq

/-- Outcome of one `/earn` request: the success payload of lines 99-107, the
Pydantic `ValidationError` (HTTP 422), or the `Wallet not found` 404 of
line 86. -/
inductive EarnOutcome where
  | ok (base_coins : ℤ) (streak_days : ℕ) (streak_multiplier : ℚ)
      (final_coins : ℤ) (new_balance : ℤ)
  | validationError
  | notFound
deriving DecidableEq

/-- `earn_coins` of `backend/api/wallet.py` lines 47-112, after Pydantic
validation.  Steps as in the source: base coins (line 60), streak from the
history *before* the insert (line 63), multiplier (line 64), truncated final
coins (line 66), insert of the activity record (lines 69-77), then the
wallet update: read the balance (line 83), compute `new_balance` in the
caller (line 89), write it back unconditionally (lines 91-94).  When the
wallet row is missing the 404 is raised *after* the record was inserted. -/
def earn (st : EarnState) (uid : String) (atype : ActivityType)
    (duration_minutes : Option ℤ) (notes : Option String) (today : ℤ) :
    EarnOutcome × EarnState :=
  let base_coins := ACTIVITY_COINS atype
  let history := (st.activities.filter
    (fun r => r.user_id == uid && decide (today - 60 ≤ r.created_at))).map
      (fun r => r.created_at)
  let streak_days := calculate_user_streak history today
  let streak_multiplier := get_streak_multiplier (streak_days : ℤ)
  let final_coins := pyInt ((base_coins : ℚ) * streak_multiplier)
  let row : ActivityRow :=
    { user_id := uid, activity_type := atype.value, coins_earned := final_coins,
      duration_minutes := duration_minutes, notes := notes,
      streak_days := (streak_days : ℤ), multiplier_applied := streak_multiplier,
      created_at := today }
  let st1 : EarnState := { st with activities := st.activities ++ [row] }
  match st1.wallet with
  | none => (.notFound, st1)
  | some current_balance =>
      let new_balance := current_balance + final_coins
      (.ok base_coins streak_days streak_multiplier final_coins new_balance,
        { st1 with wallet := some new_balance })

/-- The `/earn` route as reached from the wire: Pydantic coerces the raw
`activity_type` string into the `ActivityType` enum and rejects the request
with a `ValidationError` — before the handler body runs, so before any store
access — when the value is unknown. -/
def earn_route (st : EarnState) (uid : String) (raw_activity_type : String)
    (duration_minutes : Option ℤ) (notes : Option String) (today : ℤ) :
    EarnOutcome × EarnState :=
  match parseActivityType raw_activity_type with
  | none => (.validationError, st)
  | some atype => earn st uid atype duration_minutes notes today

/-- Progress of one concurrent `/earn` caller through the wallet update of
lines 83-94: not yet read, read (holding the balance it saw at line 88), or
written. -/
inductive WriterPhase where
  | start
  | readDone (saved : ℤ)
  | finished
deriving DecidableEq

/-- One scheduler step of an `/earn` caller against the shared balance:
the read step returns the current balance unchanged and saves it in the
caller; the write step stores `saved + coins` computed in the caller,
unconditionally overwriting whatever the balance now is (lines 88-94). -/
def writerStep (balance : ℤ) (coins : ℤ) : WriterPhase → ℤ × WriterPhase
  | .start => (balance, .readDone balance)
  | .readDone saved => (saved + coins, .finished)
  | .finished => (balance, .finished)

/-- Run two concurrent `/earn` callers (granting `c₁` and `c₂` coins) under
an interleaving `sched` (`true` steps caller 1, `false` steps caller 2),
returning the final shared balance. -/
def runSchedule (c₁ c₂ : ℤ) : List Bool → ℤ → WriterPhase → WriterPhase → ℤ
  | [], bal, _, _ => bal
  | true :: rest, bal, p₁, p₂ =>
      let s := writerStep bal c₁ p₁
      runSchedule c₁ c₂ rest s.1 s.2 p₂
  | false :: rest, bal, p₁, p₂ =>
      let s := writerStep bal c₂ p₂
      runSchedule c₁ c₂ rest s.1 p₁ s.2

/-- Final balance after two concurrent `/earn` wallet updates from initial
balance `init`, under interleaving `sched`. -/
def concurrentEarnFinal (init c₁ c₂ : ℤ) (sched : List Bool) : ℤ :=
  runSchedule c₁ c₂ sched init .start .start

/-- The query `get_activity_history` sends to the store (lines 123-128):
filter by user, order by `created_at` descending, limit as given. -/
structure HistoryQuery where
  user_id : String
  order_desc : Bool
  limit : ℤ
deriving DecidableEq

/-- Outcome of one `/activities/history` request: the payload of lines
130-133, or a `ValidationError` (which the handler never produces). -/
inductive HistoryOutcome where
  | ok (activities : List ActivityRow) (total : ℕ)
  | validationError
deriving DecidableEq

/-- `get_activity_history` of `backend/api/wallet.py` lines 114-136: the
handler forwards `limit` to the store unchanged — there is no positivity
check — and returns the store's rows with their count. -/
def get_activity_history (store : HistoryQuery → List ActivityRow)
    (uid : String) (limit : ℤ) : HistoryOutcome :=
  let data := store { user_id := uid, order_desc := true, limit := limit }
  .ok data data.length

/-- The `/activities/history` route as reached from the wire: the `limit`
query parameter defaults to 10 when omitted (`limit: int = 10`, line 116). -/
def get_activity_history_route (store : HistoryQuery → List ActivityRow)
    (uid : String) (limitParam : Option ℤ) : HistoryOutcome :=
  get_activity_history store uid (limitParam.getD 10)

/-- A concrete stored activity row, used to exercise the history route on
explicit inputs. -/
def exampleRow : ActivityRow :=
  { user_id := "u", activity_type := "pomodoro_25min", coins_earned := 50,
    duration_minutes := none, notes := none, streak_days := 0,
    multiplier_applied := 1, created_at := 0 }

/-- Insert a row into a list sorted by descending `created_at` (helper for
`sortRowsDesc`). -/
def insertRowDesc (r : ActivityRow) : List ActivityRow → List ActivityRow
  | [] => [r]
  | q :: qs => if q.created_at ≤ r.created_at then r :: q :: qs
               else q :: insertRowDesc r qs

/-- Sort activity rows by `created_at` descending (the store-side
`order('created_at', desc=True)`). -/
def sortRowsDesc : List ActivityRow → List ActivityRow
  | [] => []
  | r :: rs => insertRowDesc r (sortRowsDesc rs)

/-- The store executing a history query on its rows: filter by user, order
by `created_at` descending when requested, and apply a non-negative limit.
(The behaviour for a negative limit is the store's, not this code's; it is
modelled only for `0 ≤ limit`, where it takes the first `limit` rows.) -/
def runHistoryQuery (rows : List ActivityRow) (q : HistoryQuery) : List ActivityRow :=
  let mine := rows.filter (fun r => r.user_id == q.user_id)
  let ordered := if q.order_desc then sortRowsDesc mine else mine
  if 0 ≤ q.limit then ordered.take q.limit.toNat else ordered

/-- Insert a `(days, multiplier)` pair into a list sorted by ascending
threshold (helper for `sortAsc`). -/
def insertAsc (p : ℤ × ℚ) : List (ℤ × ℚ) → List (ℤ × ℚ)
  | [] => [p]
  | q :: qs => if p.1 ≤ q.1 then p :: q :: qs else q :: insertAsc p qs

/-- `sorted(STREAK_MULTIPLIERS.items())`: the table items by ascending
threshold. -/
def sortAsc : List (ℤ × ℚ) → List (ℤ × ℚ)
  | [] => []
  | p :: ps => insertAsc p (sortAsc ps)

/-- Result shape of `get_next_streak_target` (lines 237-252); the success
branch carries no `message`, the terminal branch does. -/
structure NextStreakTarget where
  days_needed : ℤ
  target_days : ℤ
  bonus_multiplier : ℚ
  message : Option String
deriving DecidableEq

/-- The `for days, multiplier in sorted(...)` loop of lines 239-245: first
threshold strictly above `current_streak` wins; `none` when the loop falls
through. -/
def nextTargetLoop (current_streak : ℤ) : List (ℤ × ℚ) → Option NextStreakTarget
  | [] => none
  | (days, multiplier) :: rest =>
      if current_streak < days then
        some { days_needed := days - current_streak, target_days := days,
               bonus_multiplier := multiplier, message := none }
      else nextTargetLoop current_streak rest

/-- `max(STREAK_MULTIPLIERS.keys())` (the table's keys are positive, so a
fold from 0 computes the maximum). -/
def maxKey (table : List (ℤ × ℚ)) : ℤ :=
  (table.map Prod.fst).foldr max 0

/-- Python dict lookup `STREAK_MULTIPLIERS[k]` (total on the keys actually
used; the default 1 is never reached for the configured table). -/
def dictGet (table : List (ℤ × ℚ)) (k : ℤ) : ℚ :=
  ((table.find? (fun p => p.1 == k)).map Prod.snd).getD 1

/-- `get_next_streak_target` of `backend/api/wallet.py` lines 237-252. -/
def get_next_streak_target (current_streak : ℤ) : NextStreakTarget :=
  match nextTargetLoop current_streak (sortAsc STREAK_MULTIPLIERS) with
  | some t => t
  | none =>
      { days_needed := 0, target_days := current_streak,
        bonus_multiplier := dictGet STREAK_MULTIPLIERS (maxKey STREAK_MULTIPLIERS),
        message := some "Maximum streak bonus achieved! 🏆" }

end Wallet

namespace MainOld

/-- `STREAK_MULTIPLIERS` dict of `backend/main_old.py` lines 128-132 (the
duplicated single-file variant), as its item list in insertion order. -/
def STREAK_MULTIPLIERS : List (ℤ × ℚ) :=
  [(3, 6/5), (7, 3/2), (30, 2)]

/-- `get_streak_multiplier` of `backend/main_old.py` lines 134-139:
`for days, multiplier in sorted(STREAK_MULTIPLIERS.items(), reverse=True): if
streak_days >= days: return multiplier` then `return 1.0`. -/
def get_streak_multiplier (streak_days : ℤ) : ℚ :=
  Wallet.findMult streak_days (Wallet.sortDesc STREAK_MULTIPLIERS)

end MainOld

/-!
Helper lemmas shared by the claim theorems below.
-/

/-- Any permutation of a three-element list is one of the six explicit
orderings. -/
theorem perm_three {α : Type} {a b c : α} {l : List α} (h : l.Perm [a, b, c]) :
    l = [a, b, c] ∨ l = [a, c, b] ∨ l = [b, a, c] ∨ l = [b, c, a] ∨
      l = [c, a, b] ∨ l = [c, b, a] := by
  have hlen : l.length = 3 := by simpa using h.length_eq
  match l, hlen with
  | [x, y, z], _ =>
    have hx : x ∈ [a, b, c] := h.mem_iff.mp (by simp)
    have habc_bac : ([a, b, c] : List α).Perm [b, a, c] := List.Perm.swap b a [c]
    have habc_cab : ([a, b, c] : List α).Perm [c, a, b] :=
      (List.Perm.cons a (List.Perm.swap c b [])).trans (List.Perm.swap c a [b])
    rcases (by simpa using hx : x = a ∨ x = b ∨ x = c) with rfl | rfl | rfl
    · have h2 : [y, z].Perm [b, c] := h.cons_inv
      have hy : y ∈ [b, c] := h2.mem_iff.mp (by simp)
      rcases (by simpa using hy : y = b ∨ y = c) with rfl | rfl
      · have h3 : [z].Perm [c] := h2.cons_inv
        have : z = c := by simpa using h3.mem_iff.mp (show z ∈ [z] by simp)
        subst this; exact Or.inl rfl
      · have h3 : [z].Perm [b] := (h2.trans (List.Perm.swap _ _ [])).cons_inv
        have : z = b := by simpa using h3.mem_iff.mp (show z ∈ [z] by simp)
        subst this; exact Or.inr (Or.inl rfl)
    · have h2 : [y, z].Perm [a, c] := (h.trans habc_bac).cons_inv
      have hy : y ∈ [a, c] := h2.mem_iff.mp (by simp)
      rcases (by simpa using hy : y = a ∨ y = c) with rfl | rfl
      · have h3 : [z].Perm [c] := h2.cons_inv
        have : z = c := by simpa using h3.mem_iff.mp (show z ∈ [z] by simp)
        subst this; exact Or.inr (Or.inr (Or.inl rfl))
      · have h3 : [z].Perm [a] := (h2.trans (List.Perm.swap _ _ [])).cons_inv
        have : z = a := by simpa using h3.mem_iff.mp (show z ∈ [z] by simp)
        subst this; exact Or.inr (Or.inr (Or.inr (Or.inl rfl)))
    · have h2 : [y, z].Perm [a, b] := (h.trans habc_cab).cons_inv
      have hy : y ∈ [a, b] := h2.mem_iff.mp (by simp)
      rcases (by simpa using hy : y = a ∨ y = b) with rfl | rfl
      · have h3 : [z].Perm [b] := h2.cons_inv
        have : z = b := by simpa using h3.mem_iff.mp (show z ∈ [z] by simp)
        subst this; exact Or.inr (Or.inr (Or.inr (Or.inr (Or.inl rfl))))
      · have h3 : [z].Perm [a] := (h2.trans (List.Perm.swap _ _ [])).cons_inv
        have : z = a := by simpa using h3.mem_iff.mp (show z ∈ [z] by simp)
        subst this; exact Or.inr (Or.inr (Or.inr (Or.inr (Or.inr rfl))))

/-- Python `int()` of an integer-valued rational is that integer. -/
theorem pyInt_intCast (n : ℤ) : Wallet.pyInt (n : ℚ) = n := by
  simp [Wallet.pyInt]

/-- Python `int()` agrees with the floor on non-negative rationals
(truncation toward zero and rounding down coincide there). -/
theorem pyInt_eq_floor {q : ℚ} (h : 0 ≤ q) : Wallet.pyInt q = ⌊q⌋ := by
  rw [Wallet.pyInt, Rat.floor_def]
  exact Int.tdiv_eq_ediv (Rat.num_nonneg.mpr h) (Int.natCast_nonneg _)

/-- Evaluation form of `pyInt`. -/
theorem pyInt_eval {q : ℚ} {n : ℤ} (h : q = (n : ℚ)) : Wallet.pyInt q = n := by
  rw [h, pyInt_intCast]

/-- `get_streak_multiplier` over any supply order of the configured table
equals the descending tie-break: highest threshold `<= streak_days` wins,
1.0 below every threshold. -/
theorem streak_mult_table_spec (l : List (ℤ × ℚ))
    (hl : l.Perm Wallet.STREAK_MULTIPLIERS) (s : ℤ) :
    Wallet.get_streak_multiplier_table l s =
      (if 30 ≤ s then 2 else if 7 ≤ s then 3/2 else if 3 ≤ s then 6/5 else 1) := by
  have hl' : l.Perm [((3 : ℤ), (6/5 : ℚ)), (7, 3/2), (30, 2)] := hl
  rcases perm_three hl' with rfl | rfl | rfl | rfl | rfl | rfl <;>
    norm_num [Wallet.get_streak_multiplier_table, Wallet.sortDesc,
      Wallet.insertDesc, Wallet.findMult]

/-- Closed form of the configured `get_streak_multiplier`. -/
theorem get_streak_multiplier_eq (s : ℤ) :
    Wallet.get_streak_multiplier s =
      (if 30 ≤ s then 2 else if 7 ≤ s then 3/2 else if 3 ≤ s then 6/5 else 1) :=
  streak_mult_table_spec _ (List.Perm.refl _) s

/-- The configured multiplier is non-negative for every streak. -/
theorem get_streak_multiplier_nonneg (s : ℤ) :
    0 ≤ Wallet.get_streak_multiplier s := by
  rw [get_streak_multiplier_eq]
  split_ifs <;> norm_num

/-- Base coins are non-negative for every activity type. -/
theorem ACTIVITY_COINS_nonneg (a : Wallet.ActivityType) :
    0 ≤ Wallet.ACTIVITY_COINS a := by
  cases a <;> norm_num [Wallet.ACTIVITY_COINS]

/-!
Claim theorems.
-/

/-- C1: for every integer `streakDays`, the streak multiplier is the
multiplier of the highest configured threshold `<= streakDays` (exactly 1.0
below every threshold), regardless of the order in which the table entries
are supplied; with the configured table, streak 2 → 1.0, 3 → 1.2, 6 → 1.2,
7 → 1.5, 29 → 1.5, 30 → 2.0, 1000 → 2.0. -/
theorem c1_streak_multiplier_tie_break (l : List (ℤ × ℚ))
    (hl : l.Perm Wallet.STREAK_MULTIPLIERS) (s : ℤ) :
    Wallet.get_streak_multiplier_table l s =
      (if 30 ≤ s then 2 else if 7 ≤ s then 3/2 else if 3 ≤ s then 6/5 else 1) ∧
    Wallet.get_streak_multiplier 2 = 1 ∧
    Wallet.get_streak_multiplier 3 = 6/5 ∧
    Wallet.get_streak_multiplier 6 = 6/5 ∧
    Wallet.get_streak_multiplier 7 = 3/2 ∧
    Wallet.get_streak_multiplier 29 = 3/2 ∧
    Wallet.get_streak_multiplier 30 = 2 ∧
    Wallet.get_streak_multiplier 1000 = 2 :=
  ⟨streak_mult_table_spec l hl s, rfl, rfl, rfl, rfl, rfl, rfl, rfl⟩

/-- Witness for C1: an out-of-order table, streak 6, multiplier 1.2. -/
theorem c1_streak_multiplier_tie_break_witness :
    Wallet.get_streak_multiplier_table [(30, (2 : ℚ)), (3, 6/5), (7, 3/2)] 6 = 6/5 := by
  have h1 : ([(30, (2 : ℚ)), (3, 6/5), (7, 3/2)] : List (ℤ × ℚ)).Perm
      [(3, 6/5), (30, 2), (7, 3/2)] := List.Perm.swap _ _ _
  have h2 : ([((3 : ℤ), (6/5 : ℚ)), (30, 2), (7, 3/2)] : List (ℤ × ℚ)).Perm
      [(3, 6/5), (7, 3/2), (30, 2)] := List.Perm.cons _ (List.Perm.swap _ _ _)
  have hp : ([(30, (2 : ℚ)), (3, 6/5), (7, 3/2)] : List (ℤ × ℚ)).Perm
      Wallet.STREAK_MULTIPLIERS := h1.trans h2
  have h := (c1_streak_multiplier_tie_break _ hp 6).1
  norm_num at h
  exact h

/-- C10: the streak-multiplier function of the modular source
(`api/wallet.py`) and of the duplicated single-file variant (`main_old.py`)
are extensionally equal. -/
theorem c10_streak_multiplier_refinement (s : ℤ) :
    Wallet.get_streak_multiplier s = MainOld.get_streak_multiplier s := rfl

/-- C5: the final coin amount is `floor(baseCoins * multiplier)`, truncation
never rounds up, the `(baseCoins, multiplier, finalCoins)` triple is
deterministic in `(activityType, streakDays)`, and base 50 with multiplier
1.5 yields exactly 75 while base 75 with multiplier 1.2 yields exactly 90. -/
theorem c5_final_coins_truncated :
    (∀ (a : Wallet.ActivityType) (s : ℤ),
      Wallet.final_coins a s =
        ⌊(Wallet.ACTIVITY_COINS a : ℚ) * Wallet.get_streak_multiplier s⌋ ∧
      (Wallet.final_coins a s : ℚ) ≤
        (Wallet.ACTIVITY_COINS a : ℚ) * Wallet.get_streak_multiplier s) ∧
    (∀ (a₁ a₂ : Wallet.ActivityType) (s₁ s₂ : ℤ), a₁ = a₂ → s₁ = s₂ →
      Wallet.reward a₁ s₁ = Wallet.reward a₂ s₂) ∧
    Wallet.final_coins .POMODORO 7 = 75 ∧
    Wallet.final_coins .EXERCISE 3 = 90 := by
  have hfloor : ∀ (a : Wallet.ActivityType) (s : ℤ),
      Wallet.final_coins a s =
        ⌊(Wallet.ACTIVITY_COINS a : ℚ) * Wallet.get_streak_multiplier s⌋ := by
    intro a s
    exact pyInt_eq_floor (mul_nonneg (by exact_mod_cast ACTIVITY_COINS_nonneg a)
      (get_streak_multiplier_nonneg s))
  refine ⟨fun a s => ⟨hfloor a s, ?_⟩, ?_, ?_, ?_⟩
  · rw [hfloor a s]
    exact Int.floor_le _
  · rintro a₁ a₂ s₁ s₂ rfl rfl
    rfl
  · have h7 : Wallet.get_streak_multiplier 7 = 3/2 := by
      rw [get_streak_multiplier_eq]; norm_num
    simp only [Wallet.final_coins, h7]
    exact pyInt_eval (by norm_num [Wallet.ACTIVITY_COINS])
  · have h3 : Wallet.get_streak_multiplier 3 = 6/5 := by
      rw [get_streak_multiplier_eq]; norm_num
    simp only [Wallet.final_coins, h3]
    exact pyInt_eval (by norm_num [Wallet.ACTIVITY_COINS])

/-- Witness for C5: determinism instantiated at `(POMODORO, 7)`. -/
theorem c5_final_coins_truncated_witness :
    Wallet.reward .POMODORO 7 = Wallet.reward .POMODORO 7 :=
  c5_final_coins_truncated.2.1 .POMODORO .POMODORO 7 7 rfl rfl

/-- Closed form of `get_next_streak_target` on the configured table. -/
theorem get_next_streak_target_eq (c : ℤ) :
    Wallet.get_next_streak_target c =
      (if c < 3 then
        { days_needed := 3 - c, target_days := 3, bonus_multiplier := 6/5,
          message := none }
      else if c < 7 then
        { days_needed := 7 - c, target_days := 7, bonus_multiplier := 3/2,
          message := none }
      else if c < 30 then
        { days_needed := 30 - c, target_days := 30, bonus_multiplier := 2,
          message := none }
      else
        { days_needed := 0, target_days := c, bonus_multiplier := 2,
          message := some "Maximum streak bonus achieved! 🏆" }) := by
  by_cases h1 : c < 3
  · simp [Wallet.get_next_streak_target, Wallet.sortAsc, Wallet.insertAsc,
      Wallet.nextTargetLoop, Wallet.STREAK_MULTIPLIERS, h1]
  · by_cases h2 : c < 7
    · simp [Wallet.get_next_streak_target, Wallet.sortAsc, Wallet.insertAsc,
        Wallet.nextTargetLoop, Wallet.STREAK_MULTIPLIERS, h1, h2]
    · by_cases h3 : c < 30
      · simp [Wallet.get_next_streak_target, Wallet.sortAsc, Wallet.insertAsc,
          Wallet.nextTargetLoop, Wallet.STREAK_MULTIPLIERS, h1, h2, h3]
      · simp [Wallet.get_next_streak_target, Wallet.sortAsc, Wallet.insertAsc,
          Wallet.nextTargetLoop, Wallet.STREAK_MULTIPLIERS, Wallet.maxKey,
          Wallet.dictGet, h1, h2, h3]

/-- C9: the next-streak-milestone query returns the smallest configured
threshold strictly above the current streak, with that threshold's
multiplier and `threshold - current` days remaining; at or above the maximum
threshold it returns zero days remaining and the maximum multiplier, not an
error. -/
theorem c9_next_streak_target (c : ℤ) :
    (c < 3 → Wallet.get_next_streak_target c =
      { days_needed := 3 - c, target_days := 3, bonus_multiplier := 6/5,
        message := none }) ∧
    (3 ≤ c → c < 7 → Wallet.get_next_streak_target c =
      { days_needed := 7 - c, target_days := 7, bonus_multiplier := 3/2,
        message := none }) ∧
    (7 ≤ c → c < 30 → Wallet.get_next_streak_target c =
      { days_needed := 30 - c, target_days := 30, bonus_multiplier := 2,
        message := none }) ∧
    (30 ≤ c → (Wallet.get_next_streak_target c).days_needed = 0 ∧
      (Wallet.get_next_streak_target c).bonus_multiplier = 2) := by
  rw [get_next_streak_target_eq]
  refine ⟨fun h1 => ?_, fun h1 h2 => ?_, fun h1 h2 => ?_, fun h1 => ?_⟩ <;>
    [skip; rw [if_neg (by omega), if_pos h2];
     rw [if_neg (by omega), if_neg (by omega), if_pos h2];
     rw [if_neg (by omega), if_neg (by omega), if_neg (by omega)]] <;>
    simp [h1]

/-- Witness for C9: streak 5 targets the 7-day threshold with 2 days to go
and multiplier 1.5. -/
theorem c9_next_streak_target_witness :
    Wallet.get_next_streak_target 5 =
      { days_needed := 2, target_days := 7, bonus_multiplier := 3/2,
        message := none } := by
  have h := (c9_next_streak_target 5).2.1 (by norm_num) (by norm_num)
  norm_num at h
  exact h

theorem streakLoop_mem (dates : Finset ℤ) :
    ∀ (fuel : ℕ) (current : ℤ) (k : ℕ), k < Wallet.streakLoop dates current fuel →
      current - (k : ℤ) ∈ dates
  | 0, current, k, h => absurd h (by simp [Wallet.streakLoop])
  | fuel + 1, current, k, h => by
      rw [Wallet.streakLoop] at h
      by_cases hc : current ∈ dates
      · rw [if_pos hc] at h
        cases k with
        | zero => simpa using hc
        | succ k =>
          have hk : k < Wallet.streakLoop dates (current - 1) fuel := by omega
          have hmem := streakLoop_mem dates fuel (current - 1) k hk
          have heq : current - ((k + 1 : ℕ) : ℤ) = current - 1 - (k : ℤ) := by
            push_cast; ring
          rwa [heq]
      · rw [if_neg hc] at h
        omega

theorem streakLoop_stop (dates : Finset ℤ) :
    ∀ (fuel : ℕ) (current : ℤ), Wallet.streakLoop dates current fuel < fuel →
      current - (Wallet.streakLoop dates current fuel : ℤ) ∉ dates
  | 0, _, h => absurd h (by omega)
  | fuel + 1, current, h => by
      rw [Wallet.streakLoop] at h ⊢
      by_cases hc : current ∈ dates
      · rw [if_pos hc] at h ⊢
        have hlt : Wallet.streakLoop dates (current - 1) fuel < fuel := by omega
        have hstop := streakLoop_stop dates fuel (current - 1) hlt
        have heq : current - ((Wallet.streakLoop dates (current - 1) fuel + 1 : ℕ) : ℤ) =
            current - 1 - (Wallet.streakLoop dates (current - 1) fuel : ℤ) := by
          push_cast; ring
        rwa [heq]
      · rw [if_neg hc] at h ⊢
        simpa using hc

theorem streakLoop_le_card (dates : Finset ℤ) (fuel : ℕ) (current : ℤ) :
    Wallet.streakLoop dates current fuel ≤ dates.card := by
  set n := Wallet.streakLoop dates current fuel with hn
  have hsub : (Finset.range n).image (fun k : ℕ => current - (k : ℤ)) ⊆ dates := by
    intro x hx
    rcases Finset.mem_image.mp hx with ⟨k, hk, rfl⟩
    exact streakLoop_mem dates fuel current k (Finset.mem_range.mp hk)
  have hinj : Set.InjOn (fun k : ℕ => current - (k : ℤ)) (Finset.range n) := by
    intro a _ b _ hab
    simp only at hab
    omega
  calc n = ((Finset.range n).image (fun k : ℕ => current - (k : ℤ))).card := by
        rw [Finset.card_image_of_injOn hinj, Finset.card_range]
    _ ≤ dates.card := Finset.card_le_card hsub

theorem streakLoop_eq_of (dates : Finset ℤ) :
    ∀ (m fuel : ℕ) (current : ℤ),
      (∀ k : ℕ, k < m → current - (k : ℤ) ∈ dates) →
      current - (m : ℤ) ∉ dates → m < fuel →
      Wallet.streakLoop dates current fuel = m
  | 0, fuel, current, _, habs, hlt => by
      obtain ⟨f, rfl⟩ : ∃ f, fuel = f + 1 := ⟨fuel - 1, by omega⟩
      rw [Wallet.streakLoop, if_neg]
      simpa using habs
  | m + 1, fuel, current, hmem, habs, hlt => by
      obtain ⟨f, rfl⟩ : ∃ f, fuel = f + 1 := ⟨fuel - 1, by omega⟩
      have hc : current ∈ dates := by simpa using hmem 0 (by omega)
      rw [Wallet.streakLoop, if_pos hc]
      have hmem' : ∀ k : ℕ, k < m → current - 1 - (k : ℤ) ∈ dates := by
        intro k hk
        have hmm := hmem (k + 1) (by omega)
        have heq : current - ((k + 1 : ℕ) : ℤ) = current - 1 - (k : ℤ) := by
          push_cast; ring
        rwa [heq] at hmm
      have habs' : current - 1 - (m : ℤ) ∉ dates := by
        have heq : current - ((m + 1 : ℕ) : ℤ) = current - 1 - (m : ℤ) := by
          push_cast; ring
        rwa [heq] at habs
      have hrec := streakLoop_eq_of dates m f (current - 1) hmem' habs' (by omega)
      omega

theorem c4_streak_calculator (activity_days : List ℤ) (today : ℤ) :
    (∀ k : ℕ, k < Wallet.calculate_user_streak activity_days today →
      today - (k : ℤ) ∈ activity_days.toFinset) ∧
    today - (Wallet.calculate_user_streak activity_days today : ℤ) ∉
      activity_days.toFinset ∧
    Wallet.calculate_user_streak [] today = 0 ∧
    Wallet.calculate_user_streak ((List.range 60).map fun k : ℕ => today - (k : ℤ))
      today = 60 := by
  refine ⟨?_, ?_, rfl, ?_⟩
  · intro k hk
    rw [Wallet.calculate_user_streak] at hk
    split at hk
    · omega
    · exact streakLoop_mem _ _ _ k hk
  · rw [Wallet.calculate_user_streak]
    split
    · rename_i h
      subst h
      simp
    · apply streakLoop_stop
      have := streakLoop_le_card activity_days.toFinset
        (activity_days.toFinset.card + 1) today
      omega
  · have hnodup : ((List.range 60).map fun k : ℕ => today - (k : ℤ)).Nodup := by
      refine List.Nodup.map ?_ (List.nodup_range 60)
      intro a b hab
      simp only at hab
      omega
    have hcard : ((List.range 60).map fun k : ℕ => today - (k : ℤ)).toFinset.card = 60 := by
      rw [List.toFinset_card_of_nodup hnodup]
      simp
    have hne : ((List.range 60).map fun k : ℕ => today - (k : ℤ)) ≠ [] := by
      simp
    rw [Wallet.calculate_user_streak, if_neg hne, hcard]
    apply streakLoop_eq_of
    · intro k hk
      rw [List.mem_toFinset]
      exact List.mem_map.mpr ⟨k, List.mem_range.mpr hk, rfl⟩
    · rw [List.mem_toFinset]
      intro hmem
      rcases List.mem_map.mp hmem with ⟨k, hk, hkeq⟩
      have hk60 : (k : ℤ) = 60 := by omega
      have : k = 60 := by exact_mod_cast hk60
      rw [List.mem_range] at hk
      omega
    · omega

/-- Witness for C4: with activity on days 5 and 4 and today = 5, day 5
(offset 0) is in the date set. -/
theorem c4_streak_calculator_witness :
    (5 : ℤ) - ((0 : ℕ) : ℤ) ∈ ([5, 4] : List ℤ).toFinset :=
  (c4_streak_calculator [5, 4] 5).1 0 (by decide)

/-- C2: under the interleaving read₁·read₂·write₁·write₂, two concurrent
`/earn` wallet updates of 50 and 75 coins from balance 100 end at 175, not
100 + 50 + 75 = 225 — the unconditional read-then-write of a stale balance
in the caller loses the first update (the strictly sequential interleaving
does reach 225). -/
theorem c2_lost_update :
    Wallet.concurrentEarnFinal 100 50 75 [true, false, true, false] = 175 ∧
    Wallet.concurrentEarnFinal 100 50 75 [true, true, false, false] = 225 ∧
    (175 : ℤ) ≠ 100 + 50 + 75 := by
  refine ⟨rfl, rfl, by norm_num⟩

/-- C3: an `/earn` call whose wallet lookup fails after the activity insert
returns the 404 outcome while the freshly appended activity record remains
in the store with no balance effect — an orphaned record, contradicting the
claimed atomicity. -/
theorem c3_orphaned_activity_record :
    (Wallet.earn ⟨[], none⟩ "u" .POMODORO none none 0).1 =
      Wallet.EarnOutcome.notFound ∧
    (Wallet.earn ⟨[], none⟩ "u" .POMODORO none none 0).2.activities.length = 1 ∧
    (Wallet.earn ⟨[], none⟩ "u" .POMODORO none none 0).2.wallet = none :=
  ⟨rfl, rfl, rfl⟩

/-- C6: the streak computation catches any storage error and returns the
ordinary value 0 — indistinguishable from the result for a user with no
activity — instead of propagating a failure to the caller. -/
theorem c6_storage_error_swallowed (e : String) (today : ℤ) :
    Wallet.calculate_user_streak_run (.error e) today = 0 ∧
    Wallet.calculate_user_streak_run (.ok []) today = 0 :=
  ⟨rfl, rfl⟩

/-- C7: a request whose `activity_type` is not one of the known enumerated
values fails with a `ValidationError`, the wallet balance is unchanged, and
no activity record is created. -/
theorem c7_unknown_activity_type_rejected (st : Wallet.EarnState)
    (uid raw : String) (dur : Option ℤ) (notes : Option String) (today : ℤ)
    (h : Wallet.parseActivityType raw = none) :
    Wallet.earn_route st uid raw dur notes today =
      (Wallet.EarnOutcome.validationError, st) ∧
    (Wallet.earn_route st uid raw dur notes today).2.activities = st.activities ∧
    (Wallet.earn_route st uid raw dur notes today).2.wallet = st.wallet := by
  unfold Wallet.earn_route
  rw [h]
  exact ⟨rfl, rfl, rfl⟩

/-- Witness for C7: the unknown value `"running_5k"` is rejected with the
state untouched. -/
theorem c7_unknown_activity_type_rejected_witness :
    Wallet.earn_route ⟨[], some 100⟩ "u" "running_5k" none none 0 =
      (Wallet.EarnOutcome.validationError, ⟨[], some 100⟩) :=
  (c7_unknown_activity_type_rejected ⟨[], some 100⟩ "u" "running_5k" none none 0
    rfl).1

/-- Inserting a row into a list permutes `r :: l`. -/
theorem perm_insertRowDesc (r : Wallet.ActivityRow) :
    ∀ l, (Wallet.insertRowDesc r l).Perm (r :: l)
  | [] => List.Perm.refl _
  | q :: qs => by
      rw [Wallet.insertRowDesc]
      split
      · exact List.Perm.refl _
      · exact ((perm_insertRowDesc r qs).cons q).trans (List.Perm.swap _ _ _)

/-- The store-side sort is a permutation of its input. -/
theorem sortRowsDesc_perm : ∀ l, (Wallet.sortRowsDesc l).Perm l
  | [] => List.Perm.refl _
  | r :: rs => by
      rw [Wallet.sortRowsDesc]
      exact (perm_insertRowDesc r _).trans ((sortRowsDesc_perm rs).cons r)

/-- Inserting into a descending-sorted list keeps it sorted. -/
theorem sorted_insertRowDesc (r : Wallet.ActivityRow) :
    ∀ l, l.Sorted (fun a b => b.created_at ≤ a.created_at) →
      (Wallet.insertRowDesc r l).Sorted (fun a b => b.created_at ≤ a.created_at)
  | [], _ => by simp [Wallet.insertRowDesc]
  | q :: qs, h => by
      rw [Wallet.insertRowDesc]
      rcases List.sorted_cons.mp h with ⟨hq, hqs⟩
      split
      · rename_i hle
        refine List.sorted_cons.mpr ⟨?_, h⟩
        intro b hb
        rcases List.mem_cons.mp hb with rfl | hb'
        · exact hle
        · exact le_trans (hq b hb') hle
      · rename_i hgt
        refine List.sorted_cons.mpr ⟨?_, sorted_insertRowDesc r qs hqs⟩
        intro b hb
        have hb' := (perm_insertRowDesc r qs).mem_iff.mp hb
        rcases List.mem_cons.mp hb' with rfl | hb''
        · omega
        · exact hq b hb''

/-- The store-side sort orders rows by `created_at` descending. -/
theorem sortRowsDesc_sorted :
    ∀ l, (Wallet.sortRowsDesc l).Sorted (fun a b => b.created_at ≤ a.created_at)
  | [] => by simp [Wallet.sortRowsDesc]
  | r :: rs => by
      rw [Wallet.sortRowsDesc]
      exact sorted_insertRowDesc r _ (sortRowsDesc_sorted rs)

/-- C8 (counterexample): at `limit = -1` the history route returns an ok
payload — the `-1` is passed through to the store query — rather than the
`ValidationError` the claim requires for a non-positive limit. -/
theorem c8_history_counterexample :
    Wallet.get_activity_history
        (fun q => if q.limit = -1 then [Wallet.exampleRow] else []) "u" (-1) =
      Wallet.HistoryOutcome.ok [Wallet.exampleRow] 1 ∧
    Wallet.get_activity_history
        (fun q => if q.limit = -1 then [Wallet.exampleRow] else []) "u" (-1) ≠
      Wallet.HistoryOutcome.validationError :=
  ⟨rfl, fun h => Wallet.HistoryOutcome.noConfusion h⟩

/-- C8 (amended): `GetHistory` returns the user's most recent `limit`
records ordered by `createdAt` descending (shown against the store executing
the query, for non-negative limits), and `limit` defaults to 10 when
omitted; a non-positive limit is NOT rejected with a `ValidationError` — it
is forwarded to the store unvalidated. -/
theorem c8_history_amended (store : Wallet.HistoryQuery → List Wallet.ActivityRow)
    (uid : String) (lim : ℤ) (rows : List Wallet.ActivityRow) :
    Wallet.get_activity_history_route store uid none =
      Wallet.get_activity_history store uid 10 ∧
    Wallet.get_activity_history store uid lim =
      Wallet.HistoryOutcome.ok (store ⟨uid, true, lim⟩)
        (store ⟨uid, true, lim⟩).length ∧
    Wallet.get_activity_history store uid lim ≠
      Wallet.HistoryOutcome.validationError ∧
    (Wallet.sortRowsDesc rows).Perm rows ∧
    (Wallet.sortRowsDesc rows).Sorted (fun a b => b.created_at ≤ a.created_at) ∧
    (0 ≤ lim →
      Wallet.get_activity_history (Wallet.runHistoryQuery rows) uid lim =
        Wallet.HistoryOutcome.ok
          ((Wallet.sortRowsDesc (rows.filter fun r => r.user_id == uid)).take
            lim.toNat)
          ((Wallet.sortRowsDesc (rows.filter fun r => r.user_id == uid)).take
            lim.toNat).length) := by
  refine ⟨rfl, rfl, fun h => Wallet.HistoryOutcome.noConfusion h,
    sortRowsDesc_perm rows, sortRowsDesc_sorted rows, fun hlim => ?_⟩
  unfold Wallet.get_activity_history Wallet.runHistoryQuery
  simp [hlim]

/-- Witness for C8 (amended): the empty store at limit 0 yields the empty
page. -/
theorem c8_history_amended_witness :
    Wallet.get_activity_history (Wallet.runHistoryQuery []) "u" 0 =
      Wallet.HistoryOutcome.ok [] 0 := by
  have h := (c8_history_amended (Wallet.runHistoryQuery []) "u" 0 []).2.2.2.2.2
    (by norm_num)
  simpa [Wallet.sortRowsDesc] using h
